import Mathlib

/-!
Verification development for the medical-data text-to-SQL service
(`src/function_app.py`).

The Python text pipeline in `MedicalDataProcessor` is embedded shallowly:
strings are `List Char`, Python's `str.strip` is `pstrip`, the two
`re.sub` fence removals are `sub1` and `sub2`, the read-only guard of
`execute_query` is `guardOk`, and the end-to-end
`process_natural_language_query` is given with the completion service and
the Cosmos `query_items` call abstracted as explicit collaborators.
Case mapping and whitespace are modelled on the ASCII range, which covers
every character the pipeline's guard and sanitizer compare against.
-/

namespace MedAI

/-- The backtick character (ASCII 96), the fence-marker character in
`generate_sql_query`'s cleanup regexes. -/
def btick : Char := Char.ofNat 96

/-- The whitespace characters removed by Python `str.strip()` (ASCII part):
space, tab, newline, vertical tab, form feed, carriage return. -/
def wsChars : List Char := [' ', '\t', '\n', Char.ofNat 11, Char.ofNat 12, '\r']

/-- Whitespace test used by the model of `str.strip()`. -/
def isPySpace (c : Char) : Bool := wsChars.contains c

/-- Model of Python `str.lstrip()`: drop leading whitespace. -/
def lstrip (l : List Char) : List Char := l.dropWhile isPySpace

/-- Model of Python `str.rstrip()`: drop trailing whitespace. -/
def rstrip : List Char → List Char
  | [] => []
  | c :: cs =>
    let r := rstrip cs
    if r = [] then (if isPySpace c then [] else [c]) else c :: r

/-- Model of Python `str.strip()`: drop leading and trailing whitespace. -/
def pstrip (l : List Char) : List Char := rstrip (lstrip l)

/-- Model of `re.sub` with the first cleanup pattern of `generate_sql_query`
(a sql-tagged opening fence, with an optional following newline, greedy):
scan left to right, deleting each non-overlapping occurrence. -/
def sub1 : List Char → List Char
  | a :: b :: c :: d :: e :: f :: g :: rest' =>
    if a = btick ∧ b = btick ∧ c = btick ∧ d = 's' ∧ e = 'q' ∧ f = 'l' then
      (if g = '\n' then sub1 rest' else sub1 (g :: rest'))
    else a :: sub1 (b :: c :: d :: e :: f :: g :: rest')
  | [a, b, c, d, e, f] =>
    if a = btick ∧ b = btick ∧ c = btick ∧ d = 's' ∧ e = 'q' ∧ f = 'l' then []
    else [a, b, c, d, e, f]
  | l => l

/-- Model of `re.sub` with the second cleanup pattern of `generate_sql_query`
(a bare triple-backtick fence, with an optional following newline, greedy). -/
def sub2 : List Char → List Char
  | a :: b :: c :: g :: rest' =>
    if a = btick ∧ b = btick ∧ c = btick then
      (if g = '\n' then sub2 rest' else sub2 (g :: rest'))
    else a :: sub2 (b :: c :: g :: rest')
  | [a, b, c] =>
    if a = btick ∧ b = btick ∧ c = btick then [] else [a, b, c]
  | l => l

/-- The output sanitizer of `generate_sql_query`: the two regex
substitutions followed by the final whitespace trim. -/
def sanitizeL (l : List Char) : List Char := pstrip (sub2 (sub1 l))

/-- Model of Python `str.upper()` (ASCII case mapping). -/
def pyUpper (l : List Char) : List Char := l.map Char.toUpper

/-- The keyword the read-only guard compares against. -/
def selectChars : List Char := ['S', 'E', 'L', 'E', 'C', 'T']

/-- The read-only guard of `execute_query`:
`sql_query.strip().upper().startswith('SELECT')`. -/
def guardOk (sql : List Char) : Bool := selectChars.isPrefixOf (pyUpper (pstrip sql))

/-- The spec's notion used by the guard claim: the first non-whitespace
token of a query string (leading whitespace ignored, token ends at the
next whitespace character). -/
def specFirstToken (s : List Char) : List Char :=
  (s.dropWhile isPySpace).takeWhile (fun c => !isPySpace c)

/-- Recursive form of the guard's case-insensitive keyword comparison:
does uppercasing the string give the pattern as a prefix. -/
def isCIPfx : List Char → List Char → Bool
  | [], _ => true
  | _ :: _, [] => false
  | u :: us, c :: cs => if Char.toUpper c = u then isCIPfx us cs else false

theorem isPrefixOf_pyUpper (pat : List Char) :
    ∀ l : List Char, pat.isPrefixOf (pyUpper l) = isCIPfx pat l := by
  induction pat with
  | nil => intro l; simp [List.isPrefixOf, isCIPfx]
  | cons u us ih =>
    intro l
    cases l with
    | nil => simp [pyUpper, List.isPrefixOf, isCIPfx]
    | cons c cs =>
      simp only [pyUpper, List.map_cons, List.isPrefixOf_cons₂_self, isCIPfx] at *
      by_cases h : Char.toUpper c = u
      · simp [List.isPrefixOf, h, ih cs, pyUpper]
      · simp [List.isPrefixOf, h, Ne.symm h]

/-- The condition making a keyword pattern immune to whitespace trimming:
no whitespace character uppercases onto a pattern character. -/
def WsFree (pat : List Char) : Prop :=
  ∀ u ∈ pat, ∀ c : Char, isPySpace c = true → Char.toUpper c ≠ u

theorem selectChars_wsFree : WsFree selectChars := by
  intro u hu c hc h
  have hc' : c ∈ wsChars := by
    simpa [isPySpace, List.elem_iff] using hc
  have hcu : Char.toUpper c = c := by
    simp only [wsChars, List.mem_cons, List.not_mem_nil, or_false] at hc'
    rcases hc' with rfl | rfl | rfl | rfl | rfl | rfl <;> decide
  rw [hcu] at h
  subst h
  simp only [selectChars, List.mem_cons, List.not_mem_nil, or_false] at hu
  rcases hu with rfl | rfl | rfl | rfl | rfl | rfl <;> simp [wsChars] at hc'

theorem wsFree_tail {u : Char} {us : List Char} (h : WsFree (u :: us)) : WsFree us :=
  fun v hv => h v (List.mem_cons_of_mem u hv)

theorem isCIPfx_takeWhile (pat : List Char) (hws : WsFree pat) :
    ∀ l : List Char, isCIPfx pat (l.takeWhile (fun c => !isPySpace c)) = isCIPfx pat l := by
  induction pat with
  | nil => intro l; simp [isCIPfx]
  | cons u us ih =>
    intro l
    cases l with
    | nil => simp [List.takeWhile]
    | cons c cs =>
      by_cases h : isPySpace c
      · have : Char.toUpper c ≠ u := hws u (List.mem_cons_self u us) c h
        simp [List.takeWhile, h, isCIPfx, this]
      · simp only [List.takeWhile, h, Bool.not_false, isCIPfx]
        by_cases h2 : Char.toUpper c = u
        · simp [h2, ih (wsFree_tail hws) cs]
        · simp [h2]

theorem rstrip_eq_nil_all_ws : ∀ l : List Char, rstrip l = [] → ∀ d ∈ l, isPySpace d = true := by
  intro l
  induction l with
  | nil => intro _ d hd; cases hd
  | cons c cs ih =>
    intro h d hd
    simp only [rstrip] at h
    by_cases hr : rstrip cs = []
    · simp only [hr, if_pos rfl] at h
      by_cases hc : isPySpace c
      · rcases List.mem_cons.mp hd with rfl | hd'
        · exact hc
        · exact ih hr d hd'
      · simp [hc] at h
    · simp [hr] at h

theorem isCIPfx_all_ws (pat cs : List Char) (hws : WsFree pat)
    (hcs : ∀ d ∈ cs, isPySpace d = true) : isCIPfx pat cs = isCIPfx pat [] := by
  cases pat with
  | nil => simp [isCIPfx]
  | cons u us =>
    cases cs with
    | nil => rfl
    | cons d ds =>
      have : Char.toUpper d ≠ u :=
        hws u (List.mem_cons_self u us) d (hcs d (List.mem_cons_self d ds))
      simp [isCIPfx, this]

theorem isCIPfx_rstrip : ∀ l : List Char, ∀ pat : List Char, WsFree pat →
    isCIPfx pat (rstrip l) = isCIPfx pat l := by
  intro l
  induction l with
  | nil => intro pat _; rfl
  | cons c cs ih =>
    intro pat hws
    cases pat with
    | nil => simp [isCIPfx]
    | cons u us =>
      by_cases hr : rstrip cs = []
      · by_cases hc : isPySpace c
        · have h1 : rstrip (c :: cs) = [] := by simp [rstrip, hr, hc]
          have h2 : Char.toUpper c ≠ u := hws u (List.mem_cons_self u us) c hc
          simp [h1, isCIPfx, h2]
        · have h1 : rstrip (c :: cs) = [c] := by simp [rstrip, hr, hc]
          rw [h1]
          simp only [isCIPfx]
          by_cases h2 : Char.toUpper c = u
          · simp [h2, isCIPfx_all_ws us cs (wsFree_tail hws) (rstrip_eq_nil_all_ws cs hr)]
          · simp [h2]
      · have h1 : rstrip (c :: cs) = c :: rstrip cs := by simp [rstrip, hr]
        rw [h1]
        simp only [isCIPfx]
        by_cases h2 : Char.toUpper c = u
        · simp [h2, ih us (wsFree_tail hws)]
        · simp [h2]

/-- C1: the read-only guard of `execute_query`
(`sql_query.strip().upper().startswith('SELECT')`) does NOT succeed exactly
when the first non-whitespace token is the keyword SELECT: the query
"SELECTED * FROM c" passes the guard although its leading token is
"SELECTED", not "SELECT". -/
theorem c1_guard_token_counterexample :
    guardOk "SELECTED * FROM c".toList = true ∧
      pyUpper (specFirstToken "SELECTED * FROM c".toList) ≠ selectChars := by
  constructor
  · decide
  · decide

/-- C1 (amended): the guard applied by `execute_query` succeeds if and only
if the first non-whitespace token of the sanitized query, compared
case-insensitively, BEGINS WITH the keyword "SELECT" (it need not be exactly
that keyword). -/
theorem c1_guard_iff_token_starts_select (s : List Char) :
    guardOk s = selectChars.isPrefixOf (pyUpper (specFirstToken s)) := by
  have h1 : guardOk s = isCIPfx selectChars (pstrip s) := by
    rw [guardOk, isPrefixOf_pyUpper]
  have h2 : selectChars.isPrefixOf (pyUpper (specFirstToken s))
      = isCIPfx selectChars (specFirstToken s) := by
    rw [isPrefixOf_pyUpper]
  rw [h1, h2, pstrip, specFirstToken, lstrip,
    isCIPfx_rstrip _ _ selectChars_wsFree,
    isCIPfx_takeWhile selectChars selectChars_wsFree]

/-- The bare triple-backtick fence marker. -/
def fence3 : List Char := [btick, btick, btick]

theorem pfxToInfOf {l₁ l₂ : List Char} (h : l₁ <+: l₂) : l₁ <:+: l₂ := by
  rcases h with ⟨t, ht⟩
  exact ⟨[], t, by simpa using ht⟩

theorem sfxToInfOf {l₁ l₂ : List Char} (h : l₁ <:+ l₂) : l₁ <:+: l₂ := by
  rcases h with ⟨s, hs⟩
  exact ⟨s, [], by simpa using hs⟩

theorem sub2_head {x : Char} (xs : List Char) (hx : x ≠ btick) :
    ∃ t, sub2 (x :: xs) = x :: t := by
  match xs with
  | [] => exact ⟨[], rfl⟩
  | [b] => exact ⟨[b], rfl⟩
  | [b, c] => exact ⟨[b, c], by simp [sub2, hx]⟩
  | b :: c :: g :: r => exact ⟨sub2 (b :: c :: g :: r), by simp [sub2, hx]⟩

theorem sub2_no_bb (b c : Char) (r : List Char) (h : ¬(b = btick ∧ c = btick)) :
    ¬ ([btick, btick] <+: sub2 (b :: c :: r)) := by
  by_cases hb : b = btick
  · subst hb
    have hc : c ≠ btick := fun hc => h ⟨rfl, hc⟩
    match r with
    | [] =>
      intro hp
      have := (List.cons_prefix_cons.mp hp).2
      have := (List.cons_prefix_cons.mp this).1
      exact hc this.symm
    | [x] =>
      intro hp
      rw [show sub2 [btick, c, x] = [btick, c, x] by simp [sub2, hc]] at hp
      have := (List.cons_prefix_cons.mp hp).2
      have := (List.cons_prefix_cons.mp this).1
      exact hc this.symm
    | x :: y :: rr =>
      intro hp
      rw [show sub2 (btick :: c :: x :: y :: rr) = btick :: sub2 (c :: x :: y :: rr) by
        simp [sub2, hc]] at hp
      rcases sub2_head (x :: y :: rr) hc with ⟨t, ht⟩
      rw [ht] at hp
      have := (List.cons_prefix_cons.mp hp).2
      have := (List.cons_prefix_cons.mp this).1
      exact hc this.symm
  · intro hp
    rcases sub2_head (c :: r) hb with ⟨t, ht⟩
    rw [ht] at hp
    exact hb (List.cons_prefix_cons.mp hp).1.symm

theorem sub2_noT : ∀ l : List Char, ¬ (fence3 <:+: sub2 l) := by
  have main : ∀ n, ∀ l : List Char, l.length ≤ n → ¬ (fence3 <:+: sub2 l) := by
    intro n
    induction n with
    | zero =>
      intro l hl hinf
      match l, hl with
      | [], _ => exact by simpa [fence3, sub2] using hinf.length_le
    | succ n ih =>
      intro l hl hinf
      match l with
      | [] => exact absurd hinf.length_le (by simp [fence3, sub2])
      | [a] => exact absurd hinf.length_le (by simp [fence3, sub2])
      | [a, b] => exact absurd hinf.length_le (by simp [fence3, sub2])
      | [a, b, c] =>
        by_cases hcond : a = btick ∧ b = btick ∧ c = btick
        · rw [show sub2 [a, b, c] = [] by simp [sub2, hcond]] at hinf
          exact absurd hinf.length_le (by simp [fence3])
        · rw [show sub2 [a, b, c] = [a, b, c] by simp [sub2]; tauto] at hinf
          have hlen : fence3.length = ([a, b, c] : List Char).length := by simp [fence3]
          have := hinf.eq_of_length (by simp [fence3])
          apply hcond
          have h1 := congrArg (fun l => l.get? 0) this
          have h2 := congrArg (fun l => l.get? 1) this
          have h3 := congrArg (fun l => l.get? 2) this
          simp [fence3] at h1 h2 h3
          exact ⟨h1.symm, h2.symm, h3.symm⟩
      | a :: b :: c :: g :: r =>
        simp only [List.length_cons] at hl
        by_cases hcond : a = btick ∧ b = btick ∧ c = btick
        · by_cases hg : g = '\n'
          · rw [show sub2 (a :: b :: c :: g :: r) = sub2 r by simp [sub2, hcond, hg]] at hinf
            exact ih r (by omega) hinf
          · rw [show sub2 (a :: b :: c :: g :: r) = sub2 (g :: r) by
              simp [sub2, hcond, hg]] at hinf
            exact ih (g :: r) (by simp; omega) hinf
        · rw [show sub2 (a :: b :: c :: g :: r) = a :: sub2 (b :: c :: g :: r) by
            simp [sub2]; tauto] at hinf
          rcases List.infix_cons_iff.mp hinf with hp | hi
          · have ha : a = btick := ((List.cons_prefix_cons.mp hp).1).symm
            have hbc : ¬(b = btick ∧ c = btick) := fun ⟨h1, h2⟩ => hcond ⟨ha, h1, h2⟩
            exact sub2_no_bb b c (g :: r) hbc (List.cons_prefix_cons.mp hp).2
          · exact ih (b :: c :: g :: r) (by simp; omega) hi
  exact fun l => main l.length l le_rfl

theorem sub1_id_of_noT : ∀ l : List Char, ¬ (fence3 <:+: l) → sub1 l = l := by
  intro l
  induction l with
  | nil => intro _; rfl
  | cons a t ih =>
    intro h
    match t with
    | b :: c :: d :: e :: f :: g :: r =>
      by_cases hcond : a = btick ∧ b = btick ∧ c = btick ∧ d = 's' ∧ e = 'q' ∧ f = 'l'
      · exact absurd (pfxToInfOf ⟨d :: e :: f :: g :: r, by
          simp [fence3, hcond.1, hcond.2.1, hcond.2.2.1]⟩) h
      · rw [show sub1 (a :: b :: c :: d :: e :: f :: g :: r)
            = a :: sub1 (b :: c :: d :: e :: f :: g :: r) by simp [sub1]; tauto]
        rw [ih (fun hi => h (List.infix_cons hi))]
    | [b, c, d, e, f] =>
      by_cases hcond : a = btick ∧ b = btick ∧ c = btick ∧ d = 's' ∧ e = 'q' ∧ f = 'l'
      · exact absurd (pfxToInfOf ⟨[d, e, f], by
          simp [fence3, hcond.1, hcond.2.1, hcond.2.2.1]⟩) h
      · simp [sub1]; tauto
    | [b, c, d, e] => rfl
    | [b, c, d] => rfl
    | [b, c] => rfl
    | [b] => rfl
    | [] => rfl

theorem sub2_id_of_noT : ∀ l : List Char, ¬ (fence3 <:+: l) → sub2 l = l := by
  intro l
  induction l with
  | nil => intro _; rfl
  | cons a t ih =>
    intro h
    match t with
    | b :: c :: g :: r =>
      by_cases hcond : a = btick ∧ b = btick ∧ c = btick
      · exact absurd (pfxToInfOf ⟨g :: r, by
          simp [fence3, hcond.1, hcond.2.1, hcond.2.2]⟩) h
      · rw [show sub2 (a :: b :: c :: g :: r) = a :: sub2 (b :: c :: g :: r) by
          simp [sub2]; tauto]
        rw [ih (fun hi => h (List.infix_cons hi))]
    | [b, c] =>
      by_cases hcond : a = btick ∧ b = btick ∧ c = btick
      · exact absurd (pfxToInfOf ⟨[], by
          simp [fence3, hcond.1, hcond.2.1, hcond.2.2]⟩) h
      · simp [sub2]; tauto
    | [b] => rfl
    | [] => rfl

theorem rstrip_pfx : ∀ l : List Char, rstrip l <+: l := by
  intro l
  induction l with
  | nil => exact List.nil_prefix
  | cons c cs ih =>
    by_cases hr : rstrip cs = []
    · by_cases hc : isPySpace c
      · rw [show rstrip (c :: cs) = [] by simp [rstrip, hr, hc]]
        exact List.nil_prefix
      · rw [show rstrip (c :: cs) = [c] by simp [rstrip, hr, hc]]
        exact ⟨cs, rfl⟩
    · rw [show rstrip (c :: cs) = c :: rstrip cs by simp [rstrip, hr]]
      exact List.cons_prefix_cons.mpr ⟨rfl, ih⟩

theorem rstrip_idem : ∀ l : List Char, rstrip (rstrip l) = rstrip l := by
  intro l
  induction l with
  | nil => rfl
  | cons c cs ih =>
    by_cases hr : rstrip cs = []
    · by_cases hc : isPySpace c
      · rw [show rstrip (c :: cs) = [] by simp [rstrip, hr, hc]]; rfl
      · rw [show rstrip (c :: cs) = [c] by simp [rstrip, hr, hc]]
        simp [rstrip, hc]
    · rw [show rstrip (c :: cs) = c :: rstrip cs by simp [rstrip, hr]]
      rw [show rstrip (c :: rstrip cs) = c :: rstrip (rstrip cs) by simp [rstrip, ih, hr]]
      rw [ih]

theorem lstrip_head_not_ws : ∀ l c t, lstrip l = c :: t → isPySpace c = false := by
  intro l
  induction l with
  | nil => intro c t h; simp [lstrip] at h
  | cons d ds ih =>
    intro c t h
    by_cases hd : isPySpace d
    · rw [show lstrip (d :: ds) = lstrip ds by simp [lstrip, List.dropWhile, hd]] at h
      exact ih c t h
    · rw [show lstrip (d :: ds) = d :: ds by simp [lstrip, List.dropWhile, hd]] at h
      cases h
      simpa using hd

theorem lstrip_rstrip_lstrip (l : List Char) :
    lstrip (rstrip (lstrip l)) = rstrip (lstrip l) := by
  rcases hr : rstrip (lstrip l) with _ | ⟨c, t⟩
  · rfl
  · rcases (hr ▸ rstrip_pfx (lstrip l)) with ⟨u, hu⟩
    have hc : isPySpace c = false := lstrip_head_not_ws l c (t ++ u) hu.symm
    simp [lstrip, List.dropWhile, hc]

theorem pstrip_idem (l : List Char) : pstrip (pstrip l) = pstrip l := by
  show rstrip (lstrip (rstrip (lstrip l))) = rstrip (lstrip l)
  rw [lstrip_rstrip_lstrip, rstrip_idem]

theorem pstrip_infixOfSelf (l : List Char) : pstrip l <:+: l :=
  (pfxToInfOf (rstrip_pfx (lstrip l))).trans (sfxToInfOf (List.dropWhile_suffix isPySpace))

/-- C5: the output sanitizer of `generate_sql_query` (the two fence-removal
regex substitutions followed by the whitespace trim) is idempotent:
sanitizing an already-sanitized candidate text returns it unchanged. -/
theorem c5_sanitizer_idempotent (x : List Char) : sanitizeL (sanitizeL x) = sanitizeL x := by
  have hy : ¬ (fence3 <:+: sub2 (sub1 x)) := sub2_noT (sub1 x)
  have hs : ¬ (fence3 <:+: sanitizeL x) :=
    fun h => hy (h.trans (pstrip_infixOfSelf (sub2 (sub1 x))))
  calc sanitizeL (sanitizeL x) = pstrip (sub2 (sub1 (sanitizeL x))) := rfl
    _ = pstrip (sub2 (sanitizeL x)) := by rw [sub1_id_of_noT _ hs]
    _ = pstrip (sanitizeL x) := by rw [sub2_id_of_noT _ hs]
    _ = pstrip (pstrip (sub2 (sub1 x))) := rfl
    _ = sanitizeL x := pstrip_idem (sub2 (sub1 x))

/-- C6: a completion answer wrapped in a sql-tagged fenced code block is
sanitized to exactly the bare query, with no fence markers, no language
tag, and no surrounding whitespace. -/
theorem c6_fenced_block_sanitized :
    sanitizeL (fence3 ++ "sql\n".toList ++ "SELECT * FROM c WHERE c.MEDCode = 1302".toList
        ++ '\n' :: fence3)
      = "SELECT * FROM c WHERE c.MEDCode = 1302".toList := by
  decide

/-! ## The end-to-end pipeline of `process_natural_language_query`

The two external collaborators are passed explicitly: `completion` is the
outcome of the Azure OpenAI chat call (the raw candidate text, or an
exception message), and `exec` is the Cosmos `container.query_items` call
(rows of an abstract row type `α`, or an exception message).  Exceptions
are modelled with `Except`; the capture-time timestamp is passed in as
`now`. -/

/-- The result dictionary built by `process_natural_language_query`.
`error = none` models the success dictionary, which carries no error key. -/
structure Outcome (α : Type) where
  natural_language_query : List Char
  generated_sql : Option (List Char)
  results : Option (List α)
  row_count : Nat
  success : Bool
  error : Option (List Char)
  timestamp : List Char
deriving DecidableEq

/-- `generate_sql_query`: take the completion collaborator's candidate text,
strip it, remove fence markers and trim (the sanitizer); a completion
failure propagates as an exception. -/
def generate_sql_query (completion : Except (List Char) (List Char)) :
    Except (List Char) (List Char) :=
  match completion with
  | .error e => .error e
  | .ok raw => .ok (sanitizeL (pstrip raw))

/-- The message of the `ValueError` raised by `execute_query`'s guard. -/
def onlySelectMsg : List Char := "Only SELECT queries are allowed".toList

/-- `execute_query`: apply the read-only guard, then (and only then) invoke
the data-store collaborator. -/
def execute_query {α : Type} (exec : List Char → Except (List Char) (List α))
    (sql : List Char) : Except (List Char) (List α) :=
  if guardOk sql then exec sql else .error onlySelectMsg

/-- The failure dictionary of `process_natural_language_query`'s `except`
branch: `generated_sql` is the literal `None`, `results` is `None`,
`row_count` is 0, and the exception text is reported. -/
def failureOutcome (α : Type) (q e now : List Char) : Outcome α :=
  { natural_language_query := q, generated_sql := none, results := none,
    row_count := 0, success := false, error := some e, timestamp := now }

/-- `process_natural_language_query`: generate SQL from the completion
collaborator, execute it, and assemble the outcome; any exception is
converted into the failure dictionary. -/
def process_natural_language_query {α : Type}
    (completion : Except (List Char) (List Char))
    (exec : List Char → Except (List Char) (List α))
    (query now : List Char) : Outcome α :=
  match generate_sql_query completion with
  | .error e => failureOutcome α query e now
  | .ok sql =>
    match execute_query exec sql with
    | .error e => failureOutcome α query e now
    | .ok results =>
      { natural_language_query := query, generated_sql := some sql,
        results := some results, row_count := results.length,
        success := true, error := none, timestamp := now }

/-- The non-SELECT candidate text of the end-to-end rejection scenario. -/
def deleteChars : List Char := "DELETE FROM c WHERE c.MEDCode = 1302".toList

/-- C2 (counterexample): when the completion collaborator yields
"DELETE FROM c ..." the guard rejects after a sanitized SQL text exists,
yet the failure outcome's `generated_sql` is `None`, not that sanitized
text as the claim requires. -/
theorem c2_generated_sql_counterexample :
    (process_natural_language_query (Except.ok deleteChars)
        (fun _ => Except.ok ([] : List Unit)) "Remove record 1302".toList
        "2024-08-02T10:00:00Z".toList).success = false ∧
    (process_natural_language_query (Except.ok deleteChars)
        (fun _ => Except.ok ([] : List Unit)) "Remove record 1302".toList
        "2024-08-02T10:00:00Z".toList).generated_sql = none ∧
    (process_natural_language_query (Except.ok deleteChars)
        (fun _ => Except.ok ([] : List Unit)) "Remove record 1302".toList
        "2024-08-02T10:00:00Z".toList).generated_sql
      ≠ some (sanitizeL (pstrip deleteChars)) := by
  refine ⟨by decide, by decide, by decide⟩

/-- C2 (amended): every failure outcome of `process_natural_language_query`
— at any stage, including failures after SQL generation — has
success=false, rows absent, rowCount=0, an error message present, and
generatedQueryText ABSENT (the code discards the sanitized text on
failure rather than reporting it). -/
theorem c2_failure_outcome_shape {α : Type}
    (completion : Except (List Char) (List Char))
    (exec : List Char → Except (List Char) (List α)) (q now : List Char)
    (h : (process_natural_language_query completion exec q now).success = false) :
    (process_natural_language_query completion exec q now).generated_sql = none ∧
    (process_natural_language_query completion exec q now).results = none ∧
    (process_natural_language_query completion exec q now).row_count = 0 ∧
    (process_natural_language_query completion exec q now).error.isSome = true := by
  rcases completion with e | raw
  · simp [process_natural_language_query, generate_sql_query, failureOutcome]
  · simp only [process_natural_language_query, generate_sql_query] at *
    rcases hex : execute_query exec (sanitizeL (pstrip raw)) with e2 | rs
    · simp [failureOutcome]
    · simp [hex] at h

/-- Closed witness for `c2_failure_outcome_shape` at a concrete rejected
query. -/
theorem c2_failure_outcome_shape_witness :
    (process_natural_language_query (Except.ok deleteChars)
        (fun _ => Except.ok ([] : List Unit)) "Remove record 1302".toList
        "2024-08-02T10:00:00Z".toList).generated_sql = none ∧
    (process_natural_language_query (Except.ok deleteChars)
        (fun _ => Except.ok ([] : List Unit)) "Remove record 1302".toList
        "2024-08-02T10:00:00Z".toList).results = none ∧
    (process_natural_language_query (Except.ok deleteChars)
        (fun _ => Except.ok ([] : List Unit)) "Remove record 1302".toList
        "2024-08-02T10:00:00Z".toList).row_count = 0 ∧
    (process_natural_language_query (Except.ok deleteChars)
        (fun _ => Except.ok ([] : List Unit)) "Remove record 1302".toList
        "2024-08-02T10:00:00Z".toList).error.isSome = true :=
  c2_failure_outcome_shape (Except.ok deleteChars)
    (fun _ => Except.ok ([] : List Unit)) "Remove record 1302".toList
    "2024-08-02T10:00:00Z".toList (by decide)

/-- C3: when the completion collaborator returns the non-SELECT text
"DELETE FROM c WHERE c.MEDCode = 1302", the pipeline fails with the
guard's non-read-query error, and the data-store collaborator is never
invoked: the outcome is identical for every execution collaborator. -/
theorem c3_guard_short_circuits {α : Type}
    (exec : List Char → Except (List Char) (List α)) (q now : List Char) :
    (process_natural_language_query (Except.ok deleteChars) exec q now).success = false ∧
    (process_natural_language_query (Except.ok deleteChars) exec q now).error
      = some onlySelectMsg ∧
    ∀ exec' : List Char → Except (List Char) (List α),
      process_natural_language_query (Except.ok deleteChars) exec q now
        = process_natural_language_query (Except.ok deleteChars) exec' q now := by
  have hsan : sanitizeL (pstrip deleteChars) = deleteChars := by decide
  have hg : guardOk deleteChars = false := by decide
  refine ⟨?_, ?_, ?_⟩ <;>
    simp [process_natural_language_query, generate_sql_query, execute_query,
      hsan, hg, failureOutcome]

/-- C4: every outcome of `process_natural_language_query` satisfies the two
spec invariants: success=true holds exactly when the generated query text
is present, the error is absent and the row count equals the number of
rows; and success=false implies rows absent and row count 0. -/
theorem c4_outcome_invariants {α : Type}
    (completion : Except (List Char) (List Char))
    (exec : List Char → Except (List Char) (List α)) (q now : List Char) :
    ((process_natural_language_query completion exec q now).success = true ↔
      ((process_natural_language_query completion exec q now).generated_sql.isSome = true ∧
       (process_natural_language_query completion exec q now).error = none ∧
       ∃ rs, (process_natural_language_query completion exec q now).results = some rs ∧
         (process_natural_language_query completion exec q now).row_count = rs.length)) ∧
    ((process_natural_language_query completion exec q now).success = false →
      (process_natural_language_query completion exec q now).results = none ∧
      (process_natural_language_query completion exec q now).row_count = 0) := by
  rcases completion with e | raw
  · simp [process_natural_language_query, generate_sql_query, failureOutcome]
  · simp only [process_natural_language_query, generate_sql_query]
    rcases hex : execute_query exec (sanitizeL (pstrip raw)) with e2 | rs
    · simp [failureOutcome]
    · simp

/-- Closed witness for `c4_outcome_invariants` at a concrete successful
query, exercising both invariants. -/
theorem c4_outcome_invariants_witness :
    ((process_natural_language_query (Except.ok "SELECT * FROM c".toList)
        (fun _ => Except.ok ([(), ()] : List Unit)) "show all".toList
        "2024-08-02T10:00:00Z".toList).success = true ↔
      ((process_natural_language_query (Except.ok "SELECT * FROM c".toList)
          (fun _ => Except.ok ([(), ()] : List Unit)) "show all".toList
          "2024-08-02T10:00:00Z".toList).generated_sql.isSome = true ∧
       (process_natural_language_query (Except.ok "SELECT * FROM c".toList)
          (fun _ => Except.ok ([(), ()] : List Unit)) "show all".toList
          "2024-08-02T10:00:00Z".toList).error = none ∧
       ∃ rs, (process_natural_language_query (Except.ok "SELECT * FROM c".toList)
          (fun _ => Except.ok ([(), ()] : List Unit)) "show all".toList
          "2024-08-02T10:00:00Z".toList).results = some rs ∧
         (process_natural_language_query (Except.ok "SELECT * FROM c".toList)
          (fun _ => Except.ok ([(), ()] : List Unit)) "show all".toList
          "2024-08-02T10:00:00Z".toList).row_count = rs.length)) ∧
    ((process_natural_language_query (Except.ok "SELECT * FROM c".toList)
        (fun _ => Except.ok ([(), ()] : List Unit)) "show all".toList
        "2024-08-02T10:00:00Z".toList).success = false →
      (process_natural_language_query (Except.ok "SELECT * FROM c".toList)
        (fun _ => Except.ok ([(), ()] : List Unit)) "show all".toList
        "2024-08-02T10:00:00Z".toList).results = none ∧
      (process_natural_language_query (Except.ok "SELECT * FROM c".toList)
        (fun _ => Except.ok ([(), ()] : List Unit)) "show all".toList
        "2024-08-02T10:00:00Z".toList).row_count = 0) :=
  c4_outcome_invariants (Except.ok "SELECT * FROM c".toList)
    (fun _ => Except.ok ([(), ()] : List Unit)) "show all".toList
    "2024-08-02T10:00:00Z".toList

/-! ## Sample-data limit handling of `http_get_sample_data` -/

/-- The effective limit computed by `http_get_sample_data`:
`int(req.params.get('limit', '10'))` followed by `min(max(limit, 1), 100)`. -/
def sampleDataLimit (param : Option Int) : Int := min (max (param.getD 10) 1) 100

/-- C7: the sample-fetch limit is clamped to [1,100]; requesting 0 gives 1,
requesting 1000 gives 100, and a missing limit parameter defaults to 10. -/
theorem c7_sample_limit_clamped :
    (∀ N : Int, 1 ≤ sampleDataLimit (some N) ∧ sampleDataLimit (some N) ≤ 100) ∧
    sampleDataLimit (some 0) = 1 ∧ sampleDataLimit (some 1000) = 100 ∧
    sampleDataLimit none = 10 := by
  refine ⟨fun N => ⟨?_, ?_⟩, by decide, by decide, by decide⟩ <;>
    simp [sampleDataLimit]

/-! ## The batch upload of `upload_medical_records`

A caller-supplied record is a JSON object whose relevant keys may each be
present or absent (`Option`); the stored Cosmos document is built by the
writer.  The `container.create_item` collaborator is passed explicitly as
`create` (returning an exception message or succeeding), the per-record
`uuid.uuid4()` supply as `fresh`, both indexed by the record's position. -/

/-- A record of the upload request body; every field the caller may or may
not supply is optional. -/
structure InRecord where
  MEDCode : Option Int
  Slot : Option Int
  Value : Option (List Char)
  id : Option (List Char)
  timestamp : Option (List Char)
deriving DecidableEq

/-- A document as written to the store by `upload_medical_records`. -/
structure StoredDoc where
  id : List Char
  MEDCode : Int
  Slot : Int
  Value : List Char
  timestamp : List Char
deriving DecidableEq

/-- The validation of `upload_medical_records`:
`all(field in record for field in ["MEDCode", "Slot", "Value"])`. -/
def requiredPresent (r : InRecord) : Bool :=
  r.MEDCode.isSome && r.Slot.isSome && r.Value.isSome

/-- The document constructed for a validated record: a fresh id, the three
caller fields, and a capture-time timestamp.  (The `getD` defaults are
never reached on validated records.) -/
def mkDocument (uid now : List Char) (r : InRecord) : StoredDoc :=
  { id := uid, MEDCode := r.MEDCode.getD 0, Slot := r.Slot.getD 0,
    Value := r.Value.getD [], timestamp := now }

/-- The per-record validation error message. -/
def missingFieldsErr (i : Nat) : List Char :=
  "Record ".toList ++ (toString i).toList
    ++ ": Missing required fields (MEDCode, Slot, Value)".toList

/-- The per-record upload-exception error message. -/
def recordUploadErr (i : Nat) (e : List Char) : List Char :=
  "Record ".toList ++ (toString i).toList ++ ": ".toList ++ e

/-- The record loop of `upload_medical_records`, accumulating the uploaded
count, the per-record errors, and the trace of documents passed to
`container.create_item`, in order. -/
def uploadLoop (create : Nat → StoredDoc → Option (List Char))
    (fresh : Nat → List Char) (now : List Char) :
    Nat → List InRecord → Nat × List (List Char) × List StoredDoc
  | _, [] => (0, [], [])
  | i, r :: rs =>
    let rest := uploadLoop create fresh now (i + 1) rs
    if requiredPresent r then
      match create i (mkDocument (fresh i) now r) with
      | some e =>
        (rest.1, recordUploadErr i e :: rest.2.1, mkDocument (fresh i) now r :: rest.2.2)
      | none => (rest.1 + 1, rest.2.1, mkDocument (fresh i) now r :: rest.2.2)
    else
      (rest.1, missingFieldsErr i :: rest.2.1, rest.2.2)

/-- The aggregate result dictionary of `upload_medical_records`. -/
structure UploadResult where
  uploaded_count : Nat
  total_records : Nat
  errors : List (List Char)
  success : Bool
  timestamp : List Char
deriving DecidableEq

/-- `upload_medical_records`: run the record loop over the whole batch and
assemble the aggregate result (`success = uploaded_count > 0`). -/
def upload_medical_records (create : Nat → StoredDoc → Option (List Char))
    (fresh : Nat → List Char) (now : List Char) (records : List InRecord) :
    UploadResult :=
  { uploaded_count := (uploadLoop create fresh now 0 records).1,
    total_records := records.length,
    errors := (uploadLoop create fresh now 0 records).2.1,
    success := decide (0 < (uploadLoop create fresh now 0 records).1),
    timestamp := now }

/-- The documents `upload_medical_records` passes to
`container.create_item`, in call order. -/
def uploadDocs (create : Nat → StoredDoc → Option (List Char))
    (fresh : Nat → List Char) (now : List Char) (records : List InRecord) :
    List StoredDoc :=
  (uploadLoop create fresh now 0 records).2.2

theorem uploadLoop_append (create : Nat → StoredDoc → Option (List Char))
    (fresh : Nat → List Char) (now : List Char) :
    ∀ (xs ys : List InRecord) (i : Nat),
      uploadLoop create fresh now i (xs ++ ys)
        = ((uploadLoop create fresh now i xs).1
            + (uploadLoop create fresh now (i + xs.length) ys).1,
           (uploadLoop create fresh now i xs).2.1
            ++ (uploadLoop create fresh now (i + xs.length) ys).2.1,
           (uploadLoop create fresh now i xs).2.2
            ++ (uploadLoop create fresh now (i + xs.length) ys).2.2) := by
  intro xs
  induction xs with
  | nil => intro ys i; simp [uploadLoop]
  | cons r rs ih =>
    intro ys i
    have harith : i + 1 + rs.length = i + (rs.length + 1) := by omega
    simp only [List.cons_append, uploadLoop, List.length_cons]
    by_cases hv : requiredPresent r
    · rcases hc : create i (mkDocument (fresh i) now r) with _ | e
      · simp [hv, hc, ih ys (i + 1), harith]
        omega
      · simp [hv, hc, ih ys (i + 1), harith]
    · simp [hv, ih ys (i + 1), harith]

theorem uploadLoop_all_valid (create : Nat → StoredDoc → Option (List Char))
    (fresh : Nat → List Char) (now : List Char)
    (hC : ∀ i d, create i d = none) :
    ∀ (rs : List InRecord) (i : Nat), (∀ r ∈ rs, requiredPresent r = true) →
      (uploadLoop create fresh now i rs).1 = rs.length ∧
      (uploadLoop create fresh now i rs).2.1 = [] := by
  intro rs
  induction rs with
  | nil => intro i _; exact ⟨rfl, rfl⟩
  | cons r rs ih =>
    intro i hall
    have hr : requiredPresent r = true := hall r (List.mem_cons_self r rs)
    have hrest := ih (i + 1) (fun x hx => hall x (List.mem_cons_of_mem r hx))
    simp [uploadLoop, hr, hC i, hrest.1, hrest.2]

theorem uploadLoop_all_invalid (create : Nat → StoredDoc → Option (List Char))
    (fresh : Nat → List Char) (now : List Char) :
    ∀ (rs : List InRecord) (i : Nat), (∀ r ∈ rs, requiredPresent r = false) →
      (uploadLoop create fresh now i rs).1 = 0 ∧
      (uploadLoop create fresh now i rs).2.1.length = rs.length := by
  intro rs
  induction rs with
  | nil => intro i _; exact ⟨rfl, rfl⟩
  | cons r rs ih =>
    intro i hall
    have hr : requiredPresent r = false := hall r (List.mem_cons_self r rs)
    have hrest := ih (i + 1) (fun x hx => hall x (List.mem_cons_of_mem r hx))
    simp [uploadLoop, hr, hrest.1, hrest.2]

/-- C8: in a batch whose only invalid record is `bad` (missing a required
field) while every other record validates and uploads without error, the
aggregate reports `uploaded_count = total - 1` and exactly one error — the
missing-fields message for `bad`'s position — and the records after `bad`
are still processed. -/
theorem c8_one_invalid_record (create : Nat → StoredDoc → Option (List Char))
    (fresh : Nat → List Char) (now : List Char)
    (pre post : List InRecord) (bad : InRecord)
    (hpre : ∀ r ∈ pre, requiredPresent r = true)
    (hpost : ∀ r ∈ post, requiredPresent r = true)
    (hbad : requiredPresent bad = false)
    (hC : ∀ i d, create i d = none) :
    (upload_medical_records create fresh now (pre ++ bad :: post)).uploaded_count
      = (pre ++ bad :: post).length - 1 ∧
    (upload_medical_records create fresh now (pre ++ bad :: post)).errors
      = [missingFieldsErr pre.length] := by
  have hApp := uploadLoop_append create fresh now pre (bad :: post) 0
  have hPre := uploadLoop_all_valid create fresh now hC pre 0 hpre
  have hPost := uploadLoop_all_valid create fresh now hC post (pre.length + 1) hpost
  have hBad : uploadLoop create fresh now pre.length (bad :: post)
      = ((uploadLoop create fresh now (pre.length + 1) post).1,
         missingFieldsErr pre.length
           :: (uploadLoop create fresh now (pre.length + 1) post).2.1,
         (uploadLoop create fresh now (pre.length + 1) post).2.2) := by
    simp [uploadLoop, hbad]
  constructor
  · show (uploadLoop create fresh now 0 (pre ++ bad :: post)).1 = _
    rw [hApp]
    simp only [Nat.zero_add] at hBad ⊢
    rw [hBad]
    simp only [hPre.1, hPost.1, List.length_append, List.length_cons]
    omega
  · show (uploadLoop create fresh now 0 (pre ++ bad :: post)).2.1 = _
    rw [hApp]
    simp only [Nat.zero_add] at hBad ⊢
    rw [hBad]
    simp [hPre.2, hPost.2]

/-- A concrete valid record for witnesses (from the startup seed data). -/
def recW1 : InRecord := ⟨some 1302, some 150, some "19928".toList, none, none⟩

/-- A second concrete valid record for witnesses. -/
def recW2 : InRecord := ⟨some 1303, some 150, some "Blood pressure diastolic".toList, none, none⟩

/-- A concrete invalid record (no Slot) that also tries to smuggle in a
caller-chosen timestamp. -/
def badW : InRecord := ⟨some 1304, none, some "Heart rate".toList, none, some "caller-clock".toList⟩

/-- A create collaborator that always succeeds, for witnesses. -/
def createW : Nat → StoredDoc → Option (List Char) := fun _ _ => none

/-- A deterministic uuid supply, for witnesses. -/
def freshW : Nat → List Char := fun i => "uuid-".toList ++ (toString i).toList

/-- A fixed capture-time timestamp, for witnesses. -/
def nowW : List Char := "2024-08-02T10:00:00Z".toList

/-- Closed witness for `c8_one_invalid_record` on a three-record batch whose
middle record is invalid. -/
theorem c8_one_invalid_record_witness :
    (upload_medical_records createW freshW nowW ([recW1] ++ badW :: [recW2])).uploaded_count
      = ([recW1] ++ badW :: [recW2]).length - 1 ∧
    (upload_medical_records createW freshW nowW ([recW1] ++ badW :: [recW2])).errors
      = [missingFieldsErr [recW1].length] :=
  c8_one_invalid_record createW freshW nowW [recW1] [recW2] badW
    (by decide) (by decide) (by decide) (fun _ _ => rfl)

theorem uploadLoop_trace (create : Nat → StoredDoc → Option (List Char))
    (fresh : Nat → List Char) (now : List Char) :
    ∀ (rs : List InRecord) (i : Nat),
      (uploadLoop create fresh now i rs).2.2
        = ((List.enumFrom i rs).filter (fun p => requiredPresent p.2)).map
            (fun p => mkDocument (fresh p.1) now p.2) := by
  intro rs
  induction rs with
  | nil => intro i; rfl
  | cons r rs ih =>
    intro i
    by_cases hv : requiredPresent r
    · rcases hc : create i (mkDocument (fresh i) now r) with _ | e <;>
        simp [uploadLoop, hv, hc, ih (i + 1), List.enumFrom_cons, List.filter_cons]
    · simp [uploadLoop, hv, ih (i + 1), List.enumFrom_cons, List.filter_cons]

/-- C9: the documents passed to `container.create_item` are exactly the
validated records' documents, each built by `mkDocument` with a
writer-chosen uuid and the capture-time timestamp; `mkDocument` takes its
id and timestamp from the writer, ignores any caller-supplied id or
timestamp fields, and copies MEDCode, Slot and Value from the record. -/
theorem c9_writer_assigns_id_timestamp (create : Nat → StoredDoc → Option (List Char))
    (fresh : Nat → List Char) (now : List Char) (records : List InRecord) :
    uploadDocs create fresh now records
      = ((List.enumFrom 0 records).filter (fun p => requiredPresent p.2)).map
          (fun p => mkDocument (fresh p.1) now p.2) ∧
    (∀ u t r, (mkDocument u t r).id = u ∧ (mkDocument u t r).timestamp = t) ∧
    (∀ u t r xi xt, mkDocument u t { r with id := xi, timestamp := xt } = mkDocument u t r) ∧
    (∀ u t m s v xi xt,
      mkDocument u t ⟨some m, some s, some v, xi, xt⟩
        = ⟨u, m, s, v, t⟩) :=
  ⟨uploadLoop_trace create fresh now records 0,
   fun _ _ _ => ⟨rfl, rfl⟩, fun _ _ _ _ _ => rfl, fun _ _ _ _ _ _ _ => rfl⟩

/-- C10: the aggregate upload result reports success exactly when at least
one record was uploaded; an empty batch, or a batch in which every record
fails validation, yields success=false while still reporting the
per-record errors and the total. -/
theorem c10_success_iff_some_upload (create : Nat → StoredDoc → Option (List Char))
    (fresh : Nat → List Char) (now : List Char) (records : List InRecord) :
    ((upload_medical_records create fresh now records).success = true ↔
      0 < (upload_medical_records create fresh now records).uploaded_count) ∧
    (upload_medical_records create fresh now records).total_records = records.length ∧
    (records = [] →
      upload_medical_records create fresh now records
        = { uploaded_count := 0, total_records := 0, errors := [],
            success := false, timestamp := now }) ∧
    ((∀ r ∈ records, requiredPresent r = false) →
      (upload_medical_records create fresh now records).uploaded_count = 0 ∧
      (upload_medical_records create fresh now records).success = false ∧
      (upload_medical_records create fresh now records).errors.length = records.length) := by
  refine ⟨by simp [upload_medical_records], rfl, ?_, ?_⟩
  · rintro rfl; rfl
  · intro hall
    have h := uploadLoop_all_invalid create fresh now records 0 hall
    exact ⟨h.1, by simp [upload_medical_records, h.1], by
      simpa [upload_medical_records] using h.2⟩

/-- Closed witness for `c10_success_iff_some_upload` on a batch whose only
record fails validation. -/
theorem c10_success_iff_some_upload_witness :
    (upload_medical_records createW freshW nowW [badW]).uploaded_count = 0 ∧
    (upload_medical_records createW freshW nowW [badW]).success = false ∧
    (upload_medical_records createW freshW nowW [badW]).errors.length = 1 :=
  (c10_success_iff_some_upload createW freshW nowW [badW]).2.2.2 (by decide)

end MedAI
